import Mathlib

/-!
Shallow embedding of `src/io/userptr/stream.rs` from libv4l-rs: the userptr
`Stream` (buffer arena + streaming state machine).

The device/kernel side (ioctl results, poll results) is modelled by an
environment `Env` supplying the response to each external call a stream
operation can make. Every operation returns, besides its result, the list of
device commands it actually issued (`Ev` events), so that claims counting
commands ("queues exactly one slot", "no dequeue command is issued on
timeout") are statable. Rust panics (out-of-bounds `Vec` indexing,
`Option::unwrap` failure) are modelled by the `Outcome.panicked` constructor.
-/

namespace V4l

/-- Per-buffer metadata, from `buffer::Metadata` (fields as used by
`stream.rs`: bytesused, flags, field, timestamp, sequence). Numeric fields
are modelled as `Nat`; `flags` and `timestamp` are abstracted to `Nat` since
the stream only copies them through. -/
structure Metadata where
  bytesused : Nat
  flags : Nat
  field : Nat
  timestamp : Nat
  sequence : Nat
deriving DecidableEq

instance : Inhabited Metadata := ⟨⟨0, 0, 0, 0, 0⟩⟩

/-- The part of a `v4l2_buffer` returned by a successful VIDIOC_DQBUF that
`dequeue` reads: the completed slot index and the metadata fields. -/
structure v4l2_buffer where
  index : Nat
  bytesused : Nat
  flags : Nat
  field : Nat
  timestamp : Nat
  sequence : Nat
deriving DecidableEq

/-- An `io::Error` as the stream can observe it: either the `TimedOut` error
constructed by `dequeue` itself (`io::Error::new(ErrorKind::TimedOut, ..)`,
which has no raw OS code), or an OS error carrying an errno, as produced by
`v4l2::ioctl` and `Handle::poll` on failure. -/
inductive IOErr where
  | timedOut
  | os (code : Int)
deriving DecidableEq

/-- The `raw_os_error` accessor of an `io::Error`. -/
def IOErr.raw_os_error : IOErr → Option Int
  | .timedOut => none
  | .os code => some code

/-- Result of a Rust call in the embedding: a normal return value, an error
return (`Err` of `io::Result`), or a panic. -/
inductive Outcome (α : Type) where
  | ok (a : α)
  | err (e : IOErr)
  | panicked
deriving DecidableEq

instance {ε α : Type} [DecidableEq ε] [DecidableEq α] :
    DecidableEq (Except ε α) := fun x y =>
  match x, y with
  | .ok a, .ok b =>
    if h : a = b then isTrue (by rw [h]) else isFalse (by simp [h])
  | .error a, .error b =>
    if h : a = b then isTrue (by rw [h]) else isFalse (by simp [h])
  | .ok _, .error _ => isFalse (by simp)
  | .error _, .ok _ => isFalse (by simp)

/-- A device command issued by the stream, annotated with the device's
response, recorded in order of issuance. -/
inductive Ev where
  | qbuf (index : Nat) (accepted : Bool)
  | streamon (accepted : Bool)
  | streamoff (accepted : Bool)
  | poll (timeoutMs : Int) (result : Except Int Int)
  | dqbuf (result : Except Int v4l2_buffer)
deriving DecidableEq

/-- Device/kernel responses for one stream operation. `none` / `Except.ok`
means the call succeeds; `some code` / `Except.error code` is the errno of a
failing ioctl or poll. `qbuf` is indexed by the buffer index being queued
(each index is queued at most once per operation). -/
structure Env where
  qbuf : Nat → Option Int
  streamon : Option Int
  streamoff : Option Int
  poll : Except Int Int
  dqbuf : Except Int v4l2_buffer

/-- Modelled from the spec: the userptr `Arena` (file `io/userptr/arena.rs`,
not included in the sources) is "an ordered, fixed-length collection of
Buffers"; `stream.rs` only uses its `bufs` field, a vector of user-allocated
byte buffers indexed by slot. Bytes are modelled as `Nat`. -/
structure Arena where
  bufs : List (List Nat)
deriving DecidableEq

/-- The userptr `Stream` state, from `stream.rs`. The `handle` field (an
`Arc<Handle>`, pure capability to the device fd) carries no state the
embedding needs and is omitted; `buf_type` is kept abstract as a `Nat`. -/
structure Stream where
  arena : Arena
  arena_index : Nat
  buf_type : Nat
  buf_meta : List Metadata
  timeout : Option Int
  active : Bool
deriving DecidableEq

/-- Result of running one stream operation: the returned value (or error or
panic), the stream state afterwards, and the device commands issued. -/
structure OpResult (α : Type) where
  out : Outcome α
  state : Stream
  trace : List Ev

/-- A `std::time::Duration`: seconds plus sub-second nanoseconds. -/
structure Duration where
  secs : Nat
  nanos : Nat

/-- The whole number of milliseconds of a `Duration`
(`Duration::as_millis`). -/
def Duration.as_millis (d : Duration) : Nat :=
  d.secs * 1000 + d.nanos / 1000000

/-- The `i32::MAX` bound of the `try_into::<i32>()` in `set_timeout`. -/
def i32Max : Nat := 2147483647

/-- The `set_timeout` method: stores `duration.as_millis()` converted to
`i32`; the `try_into().unwrap()` panics when the millisecond count exceeds
`i32::MAX`. -/
def Stream.set_timeout (s : Stream) (duration : Duration) : Outcome Stream :=
  if duration.as_millis ≤ i32Max then
    .ok { s with timeout := some (duration.as_millis : Int) }
  else
    .panicked

/-- The `clear_timeout` method: resets the timeout to `None`. -/
def Stream.clear_timeout (s : Stream) : Stream :=
  { s with timeout := none }

/-- The `queue(index)` method: reads `self.arena.bufs[index]` (a Rust `Vec`
index, panicking when out of range, before any ioctl is issued), then issues
VIDIOC_QBUF with the slot's pointer and length. The stream state is not
modified. -/
def Stream.queue (s : Stream) (env : Env) (index : Nat) : OpResult Unit :=
  if index < s.arena.bufs.length then
    match env.qbuf index with
    | none => ⟨.ok (), s, [.qbuf index true]⟩
    | some code => ⟨.err (.os code), s, [.qbuf index false]⟩
  else
    ⟨.panicked, s, []⟩

/-- The `dequeue()` method: polls the handle with the configured timeout
(`-1` when no timeout is set); zero readiness becomes the `TimedOut` error
with no VIDIOC_DQBUF issued; otherwise VIDIOC_DQBUF runs and, on success,
`arena_index` is set to the reported index and the metadata at that index is
overwritten (the `buf_meta[..]` store panics if the device reports an index
out of range, after `arena_index` was already updated). -/
def Stream.dequeue (s : Stream) (env : Env) : OpResult Nat :=
  let t : Int := s.timeout.getD (-1)
  match env.poll with
  | .error code => ⟨.err (.os code), s, [.poll t (.error code)]⟩
  | .ok n =>
    if n = 0 then
      ⟨.err .timedOut, s, [.poll t (.ok n)]⟩
    else
      match env.dqbuf with
      | .error code =>
          ⟨.err (.os code), s, [.poll t (.ok n), .dqbuf (.error code)]⟩
      | .ok buf =>
          if buf.index < s.buf_meta.length then
            ⟨.ok buf.index,
             { s with
                arena_index := buf.index,
                buf_meta := s.buf_meta.set buf.index
                  ⟨buf.bytesused, buf.flags, buf.field, buf.timestamp,
                   buf.sequence⟩ },
             [.poll t (.ok n), .dqbuf (.ok buf)]⟩
          else
            ⟨.panicked, { s with arena_index := buf.index },
             [.poll t (.ok n), .dqbuf (.ok buf)]⟩

/-- The `get(index)` accessor: returns `Ok((&arena.bufs[index],
&buf_meta[index]))`; both are Rust `Vec` indexings, so an out-of-range index
panics rather than returning an error. Takes `&self`: no state change. -/
def Stream.get (s : Stream) (index : Nat) : Outcome (List Nat × Metadata) :=
  match s.arena.bufs[index]?, s.buf_meta[index]? with
  | some b, some m => .ok (b, m)
  | _, _ => .panicked

/-- The `start()` method: issues VIDIOC_STREAMON; on success sets
`active := true`, on failure the state is unchanged. -/
def Stream.start (s : Stream) (env : Env) : OpResult Unit :=
  match env.streamon with
  | none => ⟨.ok (), { s with active := true }, [.streamon true]⟩
  | some code => ⟨.err (.os code), s, [.streamon false]⟩

/-- The `stop()` method: issues VIDIOC_STREAMOFF unconditionally (no check of
`active`); on success sets `active := false`, on failure the state is
unchanged. -/
def Stream.stop (s : Stream) (env : Env) : OpResult Unit :=
  match env.streamoff with
  | none => ⟨.ok (), { s with active := false }, [.streamoff true]⟩
  | some code => ⟨.err (.os code), s, [.streamoff false]⟩

/-- Result of running the `Drop` impl: either the destructor returns normally
or it panics. -/
inductive DropOutcome where
  | normal
  | panicked
deriving DecidableEq

/-- The `Drop` impl: calls `stop()`; a failure whose `raw_os_error` is 19
(ENODEV, device gone) is ignored, any other failure panics. -/
def Stream.drop (s : Stream) (env : Env) : DropOutcome × Stream × List Ev :=
  let r := s.stop env
  match r.out with
  | .ok _ => (.normal, r.state, r.trace)
  | .err e =>
    match e.raw_os_error with
    | some code =>
        if code = 19 then (.normal, r.state, r.trace)
        else (.panicked, r.state, r.trace)
    | none => (.panicked, r.state, r.trace)
  | .panicked => (.panicked, r.state, r.trace)

/-- The `for index in 0..arena.bufs.len() { self.queue(index)? }` loop of
`next`, over an explicit list of indices: stops at the first error or panic. -/
def Stream.queueAll (s : Stream) (env : Env) : List Nat → OpResult Unit
  | [] => ⟨.ok (), s, []⟩
  | i :: rest =>
    let r := s.queue env i
    match r.out with
    | .ok _ =>
      let r2 := r.state.queueAll env rest
      ⟨r2.out, r2.state, r.trace ++ r2.trace⟩
    | .err e => ⟨.err e, r.state, r.trace⟩
    | .panicked => ⟨.panicked, r.state, r.trace⟩

/-- The `next()` method: when idle, queue every arena slot then `start()`;
when active, queue only `arena_index`; then `dequeue()` and `get` the
returned index. -/
def Stream.next (s : Stream) (env : Env) : OpResult (List Nat × Metadata) :=
  let phase1 : OpResult Unit :=
    if !s.active then
      let r := s.queueAll env (List.range s.arena.bufs.length)
      match r.out with
      | .ok _ =>
        let r2 := r.state.start env
        ⟨r2.out, r2.state, r.trace ++ r2.trace⟩
      | .err e => ⟨.err e, r.state, r.trace⟩
      | .panicked => ⟨.panicked, r.state, r.trace⟩
    else
      s.queue env s.arena_index
  match phase1.out with
  | .ok _ =>
    let r := phase1.state.dequeue env
    match r.out with
    | .ok index =>
      ⟨(match r.state.get index with
        | .ok v => .ok v
        | .err e => .err e
        | .panicked => .panicked),
       r.state, phase1.trace ++ r.trace⟩
    | .err e => ⟨.err e, r.state, phase1.trace ++ r.trace⟩
    | .panicked => ⟨.panicked, r.state, phase1.trace ++ r.trace⟩
  | .err e => ⟨.err e, phase1.state, phase1.trace⟩
  | .panicked => ⟨.panicked, phase1.state, phase1.trace⟩

/-- The public operations a caller can drive a stream with. -/
inductive Op where
  | opQueue (index : Nat)
  | opDequeue
  | opStart
  | opStop
  | opNext
  | opSetTimeout (d : Duration)
  | opClearTimeout

/-- One step of a caller-driven run: apply the operation under the given
environment, reporting whether it panicked, the new state and the trace. -/
def Stream.step (s : Stream) (op : Op) (env : Env) : Bool × Stream × List Ev :=
  match op with
  | .opQueue i =>
    let r := s.queue env i
    (r.out = Outcome.panicked, r.state, r.trace)
  | .opDequeue =>
    let r := s.dequeue env
    (r.out = Outcome.panicked, r.state, r.trace)
  | .opStart =>
    let r := s.start env
    (r.out = Outcome.panicked, r.state, r.trace)
  | .opStop =>
    let r := s.stop env
    (r.out = Outcome.panicked, r.state, r.trace)
  | .opNext =>
    let r := s.next env
    (r.out = Outcome.panicked, r.state, r.trace)
  | .opSetTimeout d =>
    match s.set_timeout d with
    | .ok s1 => (false, s1, [])
    | _ => (true, s, [])
  | .opClearTimeout => (false, s.clear_timeout, [])

/-- A caller-driven run: execute a sequence of operations, each with its own
device responses; errors are returned to the caller who continues, a panic
aborts the run (the process dies). Returns the final state and the full
command trace. -/
def Stream.run (s : Stream) : List (Op × Env) → Stream × List Ev
  | [] => (s, [])
  | (op, env) :: rest =>
    let (panicked, s1, tr) := s.step op env
    if panicked then (s1, tr)
    else
      let (s2, tr2) := s1.run rest
      (s2, tr ++ tr2)

/-- A run consisting solely of `next()` calls in which every call succeeds:
returns `none` as soon as any `next` returns an error or panics. -/
def Stream.nextRun (s : Stream) : List Env → Option (Stream × List Ev)
  | [] => some (s, [])
  | env :: rest =>
    let r := s.next env
    match r.out with
    | .ok _ =>
      match r.state.nextRun rest with
      | some (s2, tr2) => some (s2, r.trace ++ tr2)
      | none => none
    | _ => none

/-- Ghost queued-set semantics of a command trace: a QBUF the device accepted
adds its index to the queued set, a successful DQBUF removes the reported
index; everything else leaves the set unchanged. -/
def stepQueued (q : List Nat) : Ev → List Nat
  | .qbuf i true => if i ∈ q then q else i :: q
  | .dqbuf (.ok buf) => q.erase buf.index
  | _ => q

/-- The queued set after a trace, starting from a given set. -/
def queuedAfter (q : List Nat) (tr : List Ev) : List Nat :=
  tr.foldl stepQueued q

/-- Checks, along a trace starting from queued set `q`, that no QBUF is ever
submitted for an index already in the queued set. -/
def checkNoDouble (q : List Nat) : List Ev → Bool
  | [] => true
  | ev :: rest =>
    (match ev with
     | .qbuf i _ => decide (i ∉ q)
     | _ => true) && checkNoDouble (stepQueued q ev) rest

/-- Whether a trace contains a successful DQBUF reporting slot `k`. -/
def dqReturned (k : Nat) (tr : List Ev) : Bool :=
  tr.any fun ev =>
    match ev with
    | .dqbuf (.ok buf) => buf.index == k
    | _ => false

/-- A freshly constructed stream (`with_buffers` after a successful
`allocate`): metadata defaulted per slot, `arena_index = 0`, inactive, no
timeout. -/
def freshStream (bufs : List (List Nat)) (buf_type : Nat) : Stream :=
  { arena := ⟨bufs⟩
    arena_index := 0
    buf_type := buf_type
    buf_meta := List.replicate bufs.length default
    timeout := none
    active := false }

/-- Recognizer for VIDIOC_QBUF events in a trace. -/
def Ev.isQbuf : Ev → Bool
  | .qbuf _ _ => true
  | _ => false

/-- Recognizer for VIDIOC_STREAMON events in a trace. -/
def Ev.isStreamon : Ev → Bool
  | .streamon _ => true
  | _ => false

/-- Invariant of an active stream driven only by successful `next` cycles, as
seen together with its ghost queued set `q`: metadata is index-aligned with
the arena, the most-recently-returned index is in range, the stream is
active, and the queued set holds exactly every slot except the
most-recently-returned one. -/
def InvA (s : Stream) (q : List Nat) : Prop :=
  s.buf_meta.length = s.arena.bufs.length ∧
  s.arena_index < s.arena.bufs.length ∧
  s.active = true ∧
  q.Nodup ∧
  ∀ i, i ∈ q ↔ (i < s.arena.bufs.length ∧ i ≠ s.arena_index)

/-- A two-slot sample arena used for concrete witnesses. -/
def sampleBufs : List (List Nat) := [[7, 7], [8, 8]]

/-- A fresh two-slot sample stream. -/
def sampleStream : Stream := freshStream sampleBufs 1

/-- The sample stream with a 100 ms timeout configured. -/
def sampleStreamT : Stream := { sampleStream with timeout := some 100 }

/-- The sample stream, active, with a 100 ms timeout (`arena_index = 0`). -/
def activeSampleT : Stream := { sampleStreamT with active := true }

/-- A device completion report for slot 1. -/
def bufK : v4l2_buffer := ⟨1, 4096, 2, 1, 99, 5⟩

/-- A device completion report for slot 0. -/
def buf0 : v4l2_buffer := ⟨0, 100, 0, 0, 1, 1⟩

/-- Device responses where everything succeeds and slot 1 completes. -/
def envOk : Env := ⟨fun _ => none, none, none, .ok 1, .ok bufK⟩

/-- Device responses where everything succeeds and slot 0 completes. -/
def envOk0 : Env := ⟨fun _ => none, none, none, .ok 1, .ok buf0⟩

/-- Device responses where the readiness wait reports zero readiness. -/
def envTO : Env := ⟨fun _ => none, none, none, .ok 0, .ok bufK⟩

/-- Device responses where the readiness wait itself fails with errno 5. -/
def envPollErr : Env := ⟨fun _ => none, none, none, .error 5, .ok bufK⟩

/-- Device responses where VIDIOC_STREAMOFF fails with ENODEV (19). -/
def envGone : Env := ⟨fun _ => none, none, some 19, .ok 1, .ok bufK⟩

/-- Device responses where STREAMON and STREAMOFF fail with EIO (5). -/
def envEIO : Env := ⟨fun _ => none, some 5, some 5, .ok 1, .ok bufK⟩

/-- A fresh single-slot stream for the re-queue counterexample. -/
def cexStream : Stream := freshStream [[0]] 0

/-- An operation sequence exhibiting a double queue submission: set a 100 ms
timeout, run one fully successful cycle (slot 0 completes), run a cycle that
fails with Timeout (slot 0 stays queued), then run another cycle — which
re-submits the still-queued slot 0. -/
def cexOps : List (Op × Env) :=
  [(Op.opSetTimeout ⟨0, 100000000⟩, envOk0),
   (Op.opNext, envOk0),
   (Op.opNext, envTO),
   (Op.opNext, envOk0)]

/-- C9: `dequeue` is atomic on error — whenever it returns an `Err` (zero
readiness under a timeout, a poll I/O error, or a failed VIDIOC_DQBUF), the
stream state, in particular `arena_index` and the whole metadata collection,
is exactly as before the call. -/
theorem dequeue_error_preserves_state (s : Stream) (env : Env) (e : IOErr)
    (h : (s.dequeue env).out = .err e) : (s.dequeue env).state = s := by
  unfold Stream.dequeue at h ⊢
  cases hp : env.poll with
  | error code => simp [hp]
  | ok n =>
    by_cases hn : n = 0
    · simp [hp, hn]
    · cases hd : env.dqbuf with
      | error code => simp [hp, hn, hd]
      | ok buf =>
        by_cases hi : buf.index < s.buf_meta.length <;>
          simp [hp, hn, hd, hi] at h

/-- Witness for C9 at a concrete poll failure. -/
theorem dequeue_error_preserves_state_witness :
    (sampleStream.dequeue envPollErr).state = sampleStream :=
  dequeue_error_preserves_state sampleStream envPollErr (.os 5) (by decide)

/-- C10: `set_timeout` panics exactly when the duration's whole-millisecond
count exceeds `i32::MAX`; below the bound it stores that count, and
`clear_timeout` always restores `timeout = None` (indefinite blocking). -/
theorem set_timeout_panic_boundary (s : Stream) (d : Duration) :
    (i32Max < d.as_millis → s.set_timeout d = .panicked) ∧
    (d.as_millis ≤ i32Max →
      s.set_timeout d = .ok { s with timeout := some (d.as_millis : Int) }) ∧
    s.clear_timeout.timeout = none := by
  refine ⟨fun h => ?_, fun h => ?_, rfl⟩
  · rw [Stream.set_timeout, if_neg (by omega)]
  · rw [Stream.set_timeout, if_pos h]

/-- Witness for C10 on both sides of the `i32::MAX` boundary. -/
theorem set_timeout_panic_boundary_witness :
    sampleStream.set_timeout ⟨2147484, 0⟩ = .panicked ∧
    sampleStream.set_timeout ⟨3, 0⟩ =
      .ok { sampleStream with timeout := some ((3000 : Nat) : Int) } :=
  ⟨(set_timeout_panic_boundary sampleStream ⟨2147484, 0⟩).1 (by decide),
   (set_timeout_panic_boundary sampleStream ⟨3, 0⟩).2.1 (by decide)⟩

/-- C8: `stop()` on an idle stream still issues the VIDIOC_STREAMOFF command
(no short-circuit on `active`), and on success leaves the observable state
unchanged; a second successful `stop()` leaves the state identical to a
single one. -/
theorem stop_idle_no_shortcircuit_idempotent (s : Stream) (env env2 : Env) :
    (∃ acc, (s.stop env).trace = [Ev.streamoff acc]) ∧
    (s.active = false → env.streamoff = none → (s.stop env).state = s) ∧
    (env.streamoff = none → env2.streamoff = none →
      ((s.stop env).state.stop env2).state = (s.stop env).state) := by
  refine ⟨?_, fun hact hoff => ?_, fun h1 h2 => ?_⟩
  · cases h : env.streamoff <;> simp [Stream.stop, h]
  · cases s; simp_all [Stream.stop]
  · simp [Stream.stop, h1, h2]

/-- Witness for C8 on the fresh idle two-slot stream. -/
theorem stop_idle_no_shortcircuit_idempotent_witness :
    (sampleStream.stop envOk).state = sampleStream ∧
    ((sampleStream.stop envOk).state.stop envOk).state =
      (sampleStream.stop envOk).state :=
  ⟨(stop_idle_no_shortcircuit_idempotent sampleStream envOk envOk).2.1 rfl rfl,
   (stop_idle_no_shortcircuit_idempotent sampleStream envOk envOk).2.2 rfl rfl⟩

/-- C5: the `Drop` impl always issues the stop command regardless of state,
and destruction completes normally exactly when that stop succeeds or fails
with ENODEV (errno 19, device gone); any other failure panics. -/
theorem drop_stop_classification (s : Stream) (env : Env) :
    (∃ acc, (s.drop env).2.2 = [Ev.streamoff acc]) ∧
    ((s.drop env).1 = DropOutcome.normal ↔
      (env.streamoff = none ∨ env.streamoff = some 19)) := by
  cases h : env.streamoff with
  | none => simp [Stream.drop, Stream.stop, h]
  | some code =>
    by_cases h19 : code = 19 <;>
      simp [Stream.drop, Stream.stop, h, IOErr.raw_os_error, h19]

/-- Every command issued by `dequeue` is the poll (first, with the configured
timeout or -1, carrying the poll's result) or a DQBUF: never a QBUF or a
STREAMON. -/
theorem dequeue_trace_shape (s : Stream) (env : Env) :
    (∃ rest, (s.dequeue env).trace =
      Ev.poll (s.timeout.getD (-1)) env.poll :: rest) ∧
    ∀ ev ∈ (s.dequeue env).trace, ev.isQbuf = false ∧ ev.isStreamon = false := by
  unfold Stream.dequeue
  cases hp : env.poll with
  | error code => simp [Ev.isQbuf, Ev.isStreamon]
  | ok n =>
    by_cases hn : n = 0
    · simp [hn, Ev.isQbuf, Ev.isStreamon]
    · cases hd : env.dqbuf with
      | error code => simp [hn, Ev.isQbuf, Ev.isStreamon]
      | ok buf =>
        by_cases hi : buf.index < s.buf_meta.length <;>
          simp [hn, hi, Ev.isQbuf, Ev.isStreamon]

/-- The `dequeue` call can only touch `arena_index` and `buf_meta`: the
arena, the `active` flag, the timeout and the metadata length are
preserved. -/
theorem dequeue_preserves_shape (s : Stream) (env : Env) :
    (s.dequeue env).state.active = s.active ∧
    (s.dequeue env).state.arena = s.arena ∧
    (s.dequeue env).state.buf_meta.length = s.buf_meta.length ∧
    (s.dequeue env).state.timeout = s.timeout := by
  unfold Stream.dequeue
  cases hp : env.poll with
  | error code => simp
  | ok n =>
    by_cases hn : n = 0
    · simp [hn]
    · cases hd : env.dqbuf with
      | error code => simp [hn]
      | ok buf =>
        by_cases hi : buf.index < s.buf_meta.length <;>
          simp [hn, hi, List.length_set]

/-- C3 counterexample: on the two-slot sample stream, `queue(2)` panics (a
Rust `Vec` index out of bounds) instead of returning a `DeviceError`, and
`get(2)` panics instead of returning an error. -/
theorem queue_get_oob_panics_cex :
    (sampleStream.queue envOk 2).out = Outcome.panicked ∧
    sampleStream.get 2 = Outcome.panicked := by
  exact ⟨rfl, rfl⟩

/-- C3 amended: for every index at or beyond the arena's buffer count,
`queue(index)` and `get(index)` panic (abort the process) before any device
command is issued, rather than returning a `DeviceError`; for an in-range
index `get` returns `Ok` of the slot's bytes and metadata, and `queue` (like
`get`, which takes `&self` and cannot mutate) leaves the stream state
unchanged. -/
theorem queue_get_bounds_spec (s : Stream) (env : Env) (index : Nat)
    (hlen : s.buf_meta.length = s.arena.bufs.length) :
    (s.arena.bufs.length ≤ index →
      (s.queue env index).out = .panicked ∧
      (s.queue env index).trace = [] ∧
      s.get index = .panicked) ∧
    (index < s.arena.bufs.length → ∃ b m, s.get index = .ok (b, m)) ∧
    (s.queue env index).state = s := by
  refine ⟨fun h => ?_, fun h => ?_, ?_⟩
  · have h1 : s.arena.bufs[index]? = none := List.getElem?_eq_none h
    refine ⟨?_, ?_, ?_⟩
    · rw [Stream.queue, if_neg (Nat.not_lt.2 h)]
    · rw [Stream.queue, if_neg (Nat.not_lt.2 h)]
    · rw [Stream.get, h1]
  · have h1 : index < s.buf_meta.length := by omega
    refine ⟨s.arena.bufs[index], s.buf_meta[index], ?_⟩
    rw [Stream.get, List.getElem?_eq_getElem h, List.getElem?_eq_getElem h1]
  · by_cases hlt : index < s.arena.bufs.length
    · cases hq : env.qbuf index <;> simp [Stream.queue, hlt, hq]
    · simp [Stream.queue, hlt]

/-- Witness for the amended C3, out of range at index 5 and in range at 0. -/
theorem queue_get_bounds_spec_witness :
    ((sampleStream.queue envOk 5).out = .panicked ∧
      (sampleStream.queue envOk 5).trace = [] ∧
      sampleStream.get 5 = .panicked) ∧
    (∃ b m, sampleStream.get 0 = .ok (b, m)) :=
  ⟨(queue_get_bounds_spec sampleStream envOk 5 (by decide)).1 (by decide),
   (queue_get_bounds_spec sampleStream envOk 0 (by decide)).2.1 (by decide)⟩

/-- C4: with a configured timeout, a poll reporting zero readiness makes
`dequeue` (and hence the `next` cycle) return the `TimedOut` error — an
error distinct by construction from every OS-level I/O error — with no DQBUF
command issued; with no timeout configured the poll is issued with -1
(block indefinitely) and, the infinite wait never reporting zero readiness,
no `TimedOut` is ever returned. -/
theorem dequeue_timeout_spec (s : Stream) (env : Env) (t : Int) :
    (s.timeout = some t → env.poll = .ok 0 →
      (s.dequeue env).out = .err .timedOut ∧
      (s.dequeue env).trace = [Ev.poll t (.ok 0)]) ∧
    (s.active = true → s.arena_index < s.arena.bufs.length →
      env.qbuf s.arena_index = none → env.poll = .ok 0 →
      (s.next env).out = .err .timedOut) ∧
    (s.timeout = none → env.poll ≠ .ok 0 →
      (∃ rest, (s.dequeue env).trace = Ev.poll (-1) env.poll :: rest) ∧
      (s.dequeue env).out ≠ .err .timedOut) ∧
    (∀ code, IOErr.timedOut ≠ IOErr.os code) := by
  refine ⟨fun h1 h2 => ?_, fun hact hidx hq hp => ?_, fun h1 h2 => ?_,
    fun code h => by cases h⟩
  · simp [Stream.dequeue, h1, h2]
  · simp [Stream.next, hact, Stream.queue, hidx, hq, Stream.dequeue, hp]
  · unfold Stream.dequeue
    cases hp : env.poll with
    | error code => simp [h1]
    | ok n =>
      have hn : ¬ n = 0 := fun hz => h2 (by rw [hp, hz])
      cases hd : env.dqbuf with
      | error code => simp [h1, hn]
      | ok buf =>
        by_cases hi : buf.index < s.buf_meta.length <;> simp [h1, hn, hi]

/-- Witness for C4: timeout on the configured stream, through `next` on the
active stream, and the indefinite wait with `timeout = None`. -/
theorem dequeue_timeout_spec_witness :
    ((sampleStreamT.dequeue envTO).out = .err .timedOut ∧
      (sampleStreamT.dequeue envTO).trace = [Ev.poll 100 (.ok 0)]) ∧
    (activeSampleT.next envTO).out = .err .timedOut ∧
    ((∃ rest, (sampleStream.dequeue envOk).trace =
        Ev.poll (-1) envOk.poll :: rest) ∧
      (sampleStream.dequeue envOk).out ≠ .err .timedOut) :=
  ⟨(dequeue_timeout_spec sampleStreamT envTO 100).1 rfl rfl,
   (dequeue_timeout_spec activeSampleT envTO 100).2.1 rfl (by decide) rfl rfl,
   (dequeue_timeout_spec sampleStream envOk (-1)).2.2.1 rfl (by decide)⟩

/-- C7: every `next()` on an active stream (with its most-recently-returned
index in range, as every reachable active stream has) issues exactly one
QBUF — for `arena_index`, the index returned by the previous successful
dequeue — as its first device command; no further QBUF is issued in that
cycle. -/
theorem next_active_queues_exactly_one (s : Stream) (env : Env)
    (hact : s.active = true) (hidx : s.arena_index < s.arena.bufs.length) :
    ∃ acc rest, (s.next env).trace = Ev.qbuf s.arena_index acc :: rest ∧
      ∀ ev ∈ rest, ev.isQbuf = false := by
  cases hq : env.qbuf s.arena_index with
  | none =>
    refine ⟨true, (s.dequeue env).trace, ?_, ?_⟩
    · cases ho : (s.dequeue env).out <;>
        simp [Stream.next, hact, Stream.queue, hidx, hq, ho]
    · intro ev hev
      exact ((dequeue_trace_shape s env).2 ev hev).1
  | some code =>
    refine ⟨false, [], ?_, by simp⟩
    simp [Stream.next, hact, Stream.queue, hidx, hq]

/-- Witness for C7 on the active sample stream with a successful cycle. -/
theorem next_active_queues_exactly_one_witness :
    ∃ acc rest, (activeSampleT.next envOk).trace =
      Ev.qbuf activeSampleT.arena_index acc :: rest ∧
      ∀ ev ∈ rest, ev.isQbuf = false :=
  next_active_queues_exactly_one activeSampleT envOk rfl (by decide)

/-- When every index in the list is in range and accepted by the device, the
queue-all loop succeeds, leaves the state untouched, and its trace is one
accepted QBUF per index, in order. -/
theorem queueAll_ok (s : Stream) (env : Env) (idxs : List Nat)
    (hin : ∀ i ∈ idxs, i < s.arena.bufs.length)
    (hacc : ∀ i ∈ idxs, env.qbuf i = none) :
    s.queueAll env idxs = ⟨.ok (), s, idxs.map fun i => Ev.qbuf i true⟩ := by
  induction idxs with
  | nil => rfl
  | cons i rest ih =>
    have hi : i < s.arena.bufs.length := hin i (List.mem_cons_self i rest)
    have ha : env.qbuf i = none := hacc i (List.mem_cons_self i rest)
    have ihr := ih (fun j hj => hin j (List.mem_cons_of_mem _ hj))
      (fun j hj => hacc j (List.mem_cons_of_mem _ hj))
    simp [Stream.queueAll, Stream.queue, hi, ha, ihr]

/-- Conversely, a successful queue-all loop means every index in the list was
in range and accepted. -/
theorem queueAll_out_ok (s : Stream) (env : Env) (idxs : List Nat)
    (h : (s.queueAll env idxs).out = .ok ()) :
    ∀ i ∈ idxs, i < s.arena.bufs.length ∧ env.qbuf i = none := by
  induction idxs with
  | nil => simp
  | cons i rest ih =>
    by_cases hi : i < s.arena.bufs.length
    · cases ha : env.qbuf i with
      | none =>
        simp only [Stream.queueAll, Stream.queue, if_pos hi, ha] at h
        intro j hj
        rcases List.mem_cons.1 hj with rfl | hj2
        · exact ⟨hi, ha⟩
        · exact ih h j hj2
      | some code =>
        simp [Stream.queueAll, Stream.queue, if_pos hi, ha] at h
    · simp [Stream.queueAll, Stream.queue, if_neg hi] at h

/-- C2: the first `next()` on a fresh (idle) stream, with the device
accepting every QBUF and the STREAMON, issues exactly one QBUF per slot
index 0..count-1 in order, then exactly one STREAMON, and the stream comes
out with `active = true` (whatever the subsequent wait and dequeue do). -/
theorem next_idle_queues_all_then_starts (s : Stream) (env : Env)
    (hidle : s.active = false)
    (hacc : ∀ i, i < s.arena.bufs.length → env.qbuf i = none)
    (hon : env.streamon = none) :
    ∃ rest,
      (s.next env).trace =
        ((List.range s.arena.bufs.length).map fun i => Ev.qbuf i true) ++
          Ev.streamon true :: rest ∧
      (∀ ev ∈ rest, ev.isQbuf = false ∧ ev.isStreamon = false) ∧
      (s.next env).state.active = true := by
  have hq : s.queueAll env (List.range s.arena.bufs.length) =
      ⟨.ok (), s, (List.range s.arena.bufs.length).map fun i => Ev.qbuf i true⟩ :=
    queueAll_ok s env _ (fun i hi => List.mem_range.1 hi)
      (fun i hi => hacc i (List.mem_range.1 hi))
  refine ⟨(Stream.dequeue { s with active := true } env).trace, ?_,
    fun ev hev => (dequeue_trace_shape { s with active := true } env).2 ev hev,
    ?_⟩
  · cases ho : (Stream.dequeue { s with active := true } env).out <;>
      simp [Stream.next, hidle, hq, Stream.start, hon, ho]
  · have hpres := (dequeue_preserves_shape { s with active := true } env).1
    cases ho : (Stream.dequeue { s with active := true } env).out <;>
      simp [Stream.next, hidle, hq, Stream.start, hon, ho, hpres]

/-- Witness for C2 on the fresh two-slot sample stream. -/
theorem next_idle_queues_all_then_starts_witness :
    ∃ rest,
      (sampleStream.next envOk).trace =
        ((List.range sampleStream.arena.bufs.length).map fun i =>
          Ev.qbuf i true) ++ Ev.streamon true :: rest ∧
      (∀ ev ∈ rest, ev.isQbuf = false ∧ ev.isStreamon = false) ∧
      (sampleStream.next envOk).state.active = true :=
  next_idle_queues_all_then_starts sampleStream envOk rfl (fun _ _ => rfl) rfl

/-- The `queue` call never modifies the stream state. -/
theorem queue_state_eq (s : Stream) (env : Env) (i : Nat) :
    (s.queue env i).state = s := by
  unfold Stream.queue
  by_cases hi : i < s.arena.bufs.length
  · cases hq : env.qbuf i <;> simp [hi, hq]
  · simp [hi]

/-- The queue-all loop never modifies the stream state. -/
theorem queueAll_state (s : Stream) (env : Env) (idxs : List Nat) :
    (s.queueAll env idxs).state = s := by
  induction idxs with
  | nil => rfl
  | cons i rest ih =>
    unfold Stream.queueAll
    by_cases hi : i < s.arena.bufs.length
    · cases hq : env.qbuf i <;> simp [Stream.queue, hi, hq, ih]
    · simp [Stream.queue, hi]

/-- The queue-all loop never reports a completed slot: its trace holds no
successful DQBUF. -/
theorem queueAll_no_dq (s : Stream) (env : Env) (idxs : List Nat) (k : Nat) :
    dqReturned k (s.queueAll env idxs).trace = false := by
  induction idxs with
  | nil => rfl
  | cons i rest ih =>
    unfold Stream.queueAll
    by_cases hi : i < s.arena.bufs.length
    · cases hq : env.qbuf i with
      | none =>
        simp [Stream.queue, hi, hq, dqReturned, List.any_append]
        simpa [dqReturned] using ih
      | some code => simp [Stream.queue, hi, hq, dqReturned]
    · simp [Stream.queue, hi, dqReturned]

/-- A `dequeue` whose trace reports no completion of slot `k` leaves slot
`k`'s metadata unchanged. -/
theorem dequeue_meta_preserved (s : Stream) (env : Env) (k : Nat)
    (h : dqReturned k (s.dequeue env).trace = false) :
    (s.dequeue env).state.buf_meta[k]? = s.buf_meta[k]? := by
  unfold Stream.dequeue at h ⊢
  cases hp : env.poll with
  | error code => rfl
  | ok n =>
    by_cases hn : n = 0
    · simp [hn]
    · cases hd : env.dqbuf with
      | error code => simp [hn]
      | ok buf =>
        by_cases hi : buf.index < s.buf_meta.length
        · rw [hp] at h
          simp only [hn, if_neg hn, hd, hi, if_pos hi, dqReturned, List.any_cons,
            List.any_nil] at h
          have hne : buf.index ≠ k := by
            intro he
            simp [he] at h
          simp [hn, hd, hi, List.getElem?_set_ne hne]
        · simp [hn, hi]

/-- One caller-driven step whose trace reports no completion of slot `k`
leaves slot `k`'s metadata unchanged. -/
theorem step_meta_preserved (s : Stream) (op : Op) (env : Env) (k : Nat)
    (h : dqReturned k (s.step op env).2.2 = false) :
    (s.step op env).2.1.buf_meta[k]? = s.buf_meta[k]? := by
  cases op with
  | opQueue i => simp [Stream.step, queue_state_eq]
  | opDequeue =>
    exact dequeue_meta_preserved s env k (by simpa [Stream.step] using h)
  | opStart => cases ho : env.streamon <;> simp [Stream.step, Stream.start, ho]
  | opStop => cases ho : env.streamoff <;> simp [Stream.step, Stream.stop, ho]
  | opSetTimeout d =>
    by_cases hd : d.as_millis ≤ i32Max <;>
      simp [Stream.step, Stream.set_timeout, hd]
  | opClearTimeout => rfl
  | opNext =>
    simp only [Stream.step] at h ⊢
    unfold Stream.next at h ⊢
    by_cases hact : s.active
    · simp only [hact, Bool.not_true, Bool.false_eq_true, if_false] at h ⊢
      by_cases hi : s.arena_index < s.arena.bufs.length
      · cases hq : env.qbuf s.arena_index with
        | none =>
          simp only [Stream.queue, if_pos hi, hq] at h ⊢
          have hq2 :
              dqReturned k (Stream.dequeue s env).trace = false := by
            cases ho : (Stream.dequeue s env).out <;>
              simp only [ho] at h <;>
              simpa [dqReturned, List.any_append] using h
          have := dequeue_meta_preserved s env k hq2
          cases ho : (Stream.dequeue s env).out <;> simp [ho, this]
        | some code => simp [Stream.queue, if_pos hi, hq]
      · simp [Stream.queue, if_neg hi]
    · simp only [hact, Bool.not_false, if_true] at h ⊢
      cases hqa : (s.queueAll env (List.range s.arena.bufs.length)).out with
      | err e => simp [hqa, queueAll_state]
      | panicked => simp [hqa, queueAll_state]
      | ok v =>
        rw [queueAll_ok s env _
          (fun i hi => List.mem_range.1 hi)
          (fun i hi => (queueAll_out_ok s env _ hqa i hi).2)] at h ⊢
        cases hon : env.streamon with
        | some code => simp [Stream.start, hon]
        | none =>
          simp only [Stream.start, hon] at h ⊢
          have hq2 : dqReturned k
              (Stream.dequeue { s with active := true } env).trace = false := by
            cases ho : (Stream.dequeue { s with active := true } env).out <;>
              simp only [ho] at h <;>
              simpa [dqReturned, List.any_append] using h
          have := dequeue_meta_preserved { s with active := true } env k hq2
          cases ho : (Stream.dequeue { s with active := true } env).out <;>
            simp [ho] <;> exact this

/-- A caller-driven run whose trace reports no completion of slot `k` leaves
slot `k`'s metadata unchanged. -/
theorem run_meta_preserved (ops : List (Op × Env)) (s : Stream) (k : Nat)
    (h : dqReturned k (s.run ops).2 = false) :
    (s.run ops).1.buf_meta[k]? = s.buf_meta[k]? := by
  induction ops generalizing s with
  | nil => rfl
  | cons oe rest ih =>
    obtain ⟨op, env⟩ := oe
    unfold Stream.run at h ⊢
    cases hstep : s.step op env with
    | mk p s1tr =>
      obtain ⟨s1, tr⟩ := s1tr
      have hs1 : (s.step op env).2.1 = s1 := by rw [hstep]
      have htr : (s.step op env).2.2 = tr := by rw [hstep]
      cases p with
      | true =>
        simp only [hstep] at h ⊢
        rw [if_pos trivial] at h ⊢
        have := step_meta_preserved s op env k (by rw [htr]; exact h)
        rw [hs1] at this
        exact this
      | false =>
        simp only [hstep] at h ⊢
        rw [if_neg (by simp)] at h ⊢
        have h2 : dqReturned k (tr ++ (Stream.run s1 rest).2) = false := h
        rw [dqReturned, List.any_append, Bool.or_eq_false_iff] at h2
        have ha := step_meta_preserved s op env k (by rw [htr]; exact h2.1)
        rw [hs1] at ha
        have hb := ih s1 h2.2
        show (Stream.run s1 rest).1.buf_meta[k]? = s.buf_meta[k]?
        rw [hb, ha]

/-- C6: a successful `dequeue` reporting slot `K` with metadata fields
(bytesused, flags, field, timestamp, sequence) makes `get K` return exactly
those fields alongside the slot's bytes; the metadata of every slot other
than `K` is unchanged by that dequeue; and slot `K`'s metadata stays
unchanged under every subsequent operation sequence whose trace contains no
further successful DQBUF reporting `K`. -/
theorem dequeue_metadata_fidelity (s : Stream) (env : Env)
    (buf : v4l2_buffer) (n : Int)
    (hpoll : env.poll = .ok n) (hn : n ≠ 0) (hdq : env.dqbuf = .ok buf)
    (hidx : buf.index < s.buf_meta.length)
    (hlen : s.buf_meta.length = s.arena.bufs.length) :
    (s.dequeue env).out = .ok buf.index ∧
    (∃ b, (s.dequeue env).state.get buf.index =
      .ok (b, ⟨buf.bytesused, buf.flags, buf.field, buf.timestamp,
        buf.sequence⟩)) ∧
    (∀ j, j ≠ buf.index →
      (s.dequeue env).state.buf_meta[j]? = s.buf_meta[j]?) ∧
    (∀ ops, dqReturned buf.index ((s.dequeue env).state.run ops).2 = false →
      ((s.dequeue env).state.run ops).1.buf_meta[buf.index]? =
        (s.dequeue env).state.buf_meta[buf.index]?) := by
  have hib : buf.index < s.arena.bufs.length := by omega
  refine ⟨?_, ⟨s.arena.bufs[buf.index], ?_⟩, fun j hj => ?_,
    fun ops hops => run_meta_preserved ops _ buf.index hops⟩
  · simp [Stream.dequeue, hpoll, hn, hdq, hidx]
  · have hst : (s.dequeue env).state =
        { s with
          arena_index := buf.index,
          buf_meta := s.buf_meta.set buf.index
            ⟨buf.bytesused, buf.flags, buf.field, buf.timestamp,
              buf.sequence⟩ } := by
      simp [Stream.dequeue, hpoll, hn, hdq, hidx]
    rw [hst]
    simp [Stream.get, List.getElem?_eq_getElem hib,
      List.getElem?_set_eq_of_lt _ hidx]
  · simp only [Stream.dequeue, hpoll, hn, if_neg hn, hdq, hidx, if_pos hidx]
    simp [List.getElem?_set_ne fun he => hj he.symm]

/-- Witness for C6 on the two-slot sample stream: the device completes slot
1 with bytesused 4096, flags 2, field 1, timestamp 99, sequence 5; slot 0's
metadata is untouched, and slot 1's metadata survives a following cycle that
times out. -/
theorem dequeue_metadata_fidelity_witness :
    (sampleStream.dequeue envOk).out = .ok 1 ∧
    (∃ b, (sampleStream.dequeue envOk).state.get 1 =
      .ok (b, ⟨4096, 2, 1, 99, 5⟩)) ∧
    (sampleStream.dequeue envOk).state.buf_meta[0]? =
      sampleStream.buf_meta[0]? ∧
    ((sampleStream.dequeue envOk).state.run [(Op.opNext, envTO)]).1.buf_meta[1]? =
      (sampleStream.dequeue envOk).state.buf_meta[1]? := by
  obtain ⟨h1, h2, h3, h4⟩ := dequeue_metadata_fidelity sampleStream envOk
    bufK 1 rfl (by decide) rfl (by decide) (by decide)
  exact ⟨h1, h2, h3 0 (by decide), h4 [(Op.opNext, envTO)] (by decide)⟩

/-- Anatomy of a successful `next` on an active stream: the device accepted
the QBUF of `arena_index` (which was in range), the poll reported readiness,
the DQBUF succeeded with an in-range index, the trace is exactly those three
commands, and the new state records the reported index and metadata. -/
theorem next_active_ok (s : Stream) (env : Env) (v : List Nat × Metadata)
    (hact : s.active = true)
    (hok : (s.next env).out = .ok v) :
    ∃ n buf,
      env.qbuf s.arena_index = none ∧
      s.arena_index < s.arena.bufs.length ∧
      env.poll = .ok n ∧ ¬ n = 0 ∧ env.dqbuf = .ok buf ∧
      buf.index < s.buf_meta.length ∧
      (s.next env).trace =
        [Ev.qbuf s.arena_index true, Ev.poll (s.timeout.getD (-1)) (.ok n),
          Ev.dqbuf (.ok buf)] ∧
      (s.next env).state =
        { s with
          arena_index := buf.index,
          buf_meta := s.buf_meta.set buf.index
            ⟨buf.bytesused, buf.flags, buf.field, buf.timestamp,
              buf.sequence⟩ } := by
  unfold Stream.next at hok ⊢
  by_cases hi : s.arena_index < s.arena.bufs.length
  · cases hq : env.qbuf s.arena_index with
    | some code => simp [hact, Stream.queue, hi, hq] at hok
    | none =>
      cases hp : env.poll with
      | error code => simp [hact, Stream.queue, hi, hq, Stream.dequeue, hp] at hok
      | ok n =>
        by_cases hn : n = 0
        · simp [hact, Stream.queue, hi, hq, Stream.dequeue, hp, hn] at hok
        · cases hd : env.dqbuf with
          | error code =>
            simp [hact, Stream.queue, hi, hq, Stream.dequeue, hp, hn, hd] at hok
          | ok buf =>
            by_cases hbi : buf.index < s.buf_meta.length
            · refine ⟨n, buf, rfl, hi, rfl, hn, rfl, hbi, ?_, ?_⟩ <;>
                simp [hact, Stream.queue, hi, hq, Stream.dequeue, hp, hn, hd, hbi]
            · simp [hact, Stream.queue, hi, hq, Stream.dequeue, hp, hn, hd,
                hbi] at hok
  · simp [hact, Stream.queue, hi] at hok

/-- Anatomy of a successful `next` on an idle stream: every slot's QBUF was
accepted, the STREAMON succeeded, the poll reported readiness, the DQBUF
succeeded with an in-range index; the trace is one QBUF per slot in order
followed by the STREAMON, the poll and the DQBUF, and the new state is
active with the reported index and metadata recorded. -/
theorem next_idle_ok (s : Stream) (env : Env) (v : List Nat × Metadata)
    (hact : s.active = false)
    (hok : (s.next env).out = .ok v) :
    ∃ n buf,
      (∀ i, i < s.arena.bufs.length → env.qbuf i = none) ∧
      env.streamon = none ∧
      env.poll = .ok n ∧ ¬ n = 0 ∧ env.dqbuf = .ok buf ∧
      buf.index < s.buf_meta.length ∧
      (s.next env).trace =
        ((List.range s.arena.bufs.length).map fun i => Ev.qbuf i true) ++
          [Ev.streamon true, Ev.poll (s.timeout.getD (-1)) (.ok n),
            Ev.dqbuf (.ok buf)] ∧
      (s.next env).state =
        { s with
          active := true,
          arena_index := buf.index,
          buf_meta := s.buf_meta.set buf.index
            ⟨buf.bytesused, buf.flags, buf.field, buf.timestamp,
              buf.sequence⟩ } := by
  unfold Stream.next at hok ⊢
  cases hqa : (s.queueAll env (List.range s.arena.bufs.length)).out with
  | err e => simp [hact, hqa] at hok
  | panicked => simp [hact, hqa] at hok
  | ok u =>
    have hcond := queueAll_out_ok s env _ hqa
    have hqeq := queueAll_ok s env (List.range s.arena.bufs.length)
      (fun i hi => (hcond i hi).1) (fun i hi => (hcond i hi).2)
    cases hon : env.streamon with
    | some code => simp [hact, hqeq, Stream.start, hon] at hok
    | none =>
      cases hp : env.poll with
      | error code =>
        simp [hact, hqeq, Stream.start, hon, Stream.dequeue, hp] at hok
      | ok n =>
        by_cases hn : n = 0
        · simp [hact, hqeq, Stream.start, hon, Stream.dequeue, hp, hn] at hok
        · cases hd : env.dqbuf with
          | error code =>
            simp [hact, hqeq, Stream.start, hon, Stream.dequeue, hp, hn,
              hd] at hok
          | ok buf =>
            by_cases hbi : buf.index < s.buf_meta.length
            · refine ⟨n, buf,
                fun i hilt => (hcond i (List.mem_range.2 hilt)).2,
                rfl, rfl, hn, rfl, hbi, ?_, ?_⟩ <;>
                simp [hact, hqeq, Stream.start, hon, Stream.dequeue, hp, hn,
                  hd, hbi]
            · simp [hact, hqeq, Stream.start, hon, Stream.dequeue, hp, hn,
                hd, hbi] at hok

/-- The no-double-queue check splits over trace concatenation, threading the
queued set through the first part. -/
theorem checkNoDouble_append (q : List Nat) (a b : List Ev) :
    checkNoDouble q (a ++ b) =
      (checkNoDouble q a && checkNoDouble (queuedAfter q a) b) := by
  induction a generalizing q with
  | nil => simp [checkNoDouble, queuedAfter]
  | cons ev rest ih =>
    simp [checkNoDouble, queuedAfter, ih, Bool.and_assoc, List.foldl_cons]

/-- The queued set after a trace concatenation is the fold of the second
part over the fold of the first. -/
theorem queuedAfter_append (q : List Nat) (a b : List Ev) :
    queuedAfter q (a ++ b) = queuedAfter (queuedAfter q a) b :=
  List.foldl_append ..

/-- A block of QBUF submissions over pairwise-distinct indices disjoint from
the current queued set passes the no-double-queue check. -/
theorem checkNoDouble_qbufs (idxs : List Nat) (q : List Nat)
    (hnd : idxs.Nodup) (hdisj : ∀ i ∈ idxs, i ∉ q) :
    checkNoDouble q (idxs.map fun i => Ev.qbuf i true) = true := by
  induction idxs generalizing q with
  | nil => rfl
  | cons i rest ih =>
    have hiq : i ∉ q := hdisj i (List.mem_cons_self i rest)
    simp only [List.map_cons, checkNoDouble, Bool.and_eq_true,
      decide_eq_true_eq]
    refine ⟨hiq, ?_⟩
    rw [show stepQueued q (Ev.qbuf i true) = i :: q from if_neg hiq]
    refine ih (i :: q) (List.nodup_cons.1 hnd).2 ?_
    intro j hj
    simp only [List.mem_cons]
    rintro (rfl | hjq)
    · exact (List.nodup_cons.1 hnd).1 hj
    · exact hdisj j (List.mem_cons_of_mem _ hj) hjq

/-- Membership in the queued set after a block of accepted QBUF
submissions: the old set plus the submitted indices. -/
theorem queuedAfter_qbufs (idxs : List Nat) (q : List Nat) (j : Nat) :
    j ∈ queuedAfter q (idxs.map fun i => Ev.qbuf i true) ↔
      (j ∈ q ∨ j ∈ idxs) := by
  induction idxs generalizing q with
  | nil => simp [queuedAfter]
  | cons i rest ih =>
    simp only [List.map_cons, queuedAfter, List.foldl_cons]
    by_cases hiq : i ∈ q
    · rw [show stepQueued q (Ev.qbuf i true) = q from if_pos hiq]
      rw [show List.foldl stepQueued q (rest.map fun i => Ev.qbuf i true) =
        queuedAfter q (rest.map fun i => Ev.qbuf i true) from rfl, ih]
      simp only [List.mem_cons]
      constructor
      · rintro (hq2 | hr)
        · exact Or.inl hq2
        · exact Or.inr (Or.inr hr)
      · rintro (hq2 | rfl | hr)
        · exact Or.inl hq2
        · exact Or.inl hiq
        · exact Or.inr hr
    · rw [show stepQueued q (Ev.qbuf i true) = i :: q from if_neg hiq]
      rw [show List.foldl stepQueued (i :: q)
          (rest.map fun i => Ev.qbuf i true) =
        queuedAfter (i :: q) (rest.map fun i => Ev.qbuf i true) from rfl, ih]
      simp only [List.mem_cons]
      constructor
      · rintro (h2 | hr)
        · rcases h2 with rfl | hq2
          · exact Or.inr (Or.inl rfl)
          · exact Or.inl hq2
        · exact Or.inr (Or.inr hr)
      · rintro (hq2 | rfl | hr)
        · exact Or.inl (Or.inr hq2)
        · exact Or.inl (Or.inl rfl)
        · exact Or.inr hr

/-- A block of accepted QBUF submissions preserves queued-set
duplicate-freeness. -/
theorem queuedAfter_qbufs_nodup (idxs : List Nat) (q : List Nat)
    (hq : q.Nodup) :
    (queuedAfter q (idxs.map fun i => Ev.qbuf i true)).Nodup := by
  induction idxs generalizing q with
  | nil => exact hq
  | cons i rest ih =>
    simp only [List.map_cons, queuedAfter, List.foldl_cons]
    by_cases hiq : i ∈ q
    · rw [show stepQueued q (Ev.qbuf i true) = q from if_pos hiq]
      exact ih q hq
    · rw [show stepQueued q (Ev.qbuf i true) = i :: q from if_neg hiq]
      exact ih _ (List.nodup_cons.2 ⟨hiq, hq⟩)

/-- A successful `next` cycle on an active stream satisfying the queued-set
invariant never re-submits a queued slot, and re-establishes the invariant
for the resulting state and queued set. -/
theorem invA_step (s : Stream) (env : Env) (q : List Nat)
    (v : List Nat × Metadata)
    (hinv : InvA s q) (hok : (s.next env).out = .ok v) :
    checkNoDouble q (s.next env).trace = true ∧
    InvA (s.next env).state (queuedAfter q (s.next env).trace) := by
  obtain ⟨hlen, hai, hact, hnd, hmem⟩ := hinv
  obtain ⟨n, buf, hq, hi, hp, hn, hd, hbi, htr, hst⟩ :=
    next_active_ok s env v hact hok
  have hnotmem : s.arena_index ∉ q := fun hm0 => ((hmem _).1 hm0).2 rfl
  have hndc : (s.arena_index :: q).Nodup := List.nodup_cons.2 ⟨hnotmem, hnd⟩
  rw [htr, hst]
  constructor
  · simp [checkNoDouble, stepQueued, hnotmem]
  · have hq2 : queuedAfter q [Ev.qbuf s.arena_index true,
        Ev.poll (s.timeout.getD (-1)) (.ok n), Ev.dqbuf (.ok buf)] =
        (s.arena_index :: q).erase buf.index := by
      simp [queuedAfter, stepQueued, hnotmem]
    rw [hq2]
    refine ⟨by simp [List.length_set, hlen], by simpa using hlen ▸ hbi, hact,
      hndc.erase _, ?_⟩
    intro i
    rw [List.Nodup.mem_erase_iff hndc]
    simp only [List.mem_cons]
    constructor
    · rintro ⟨hne, rfl | hiq⟩
      · exact ⟨hai, hne⟩
      · exact ⟨((hmem i).1 hiq).1, hne⟩
    · rintro ⟨hlt, hne⟩
      by_cases hia : i = s.arena_index
      · exact ⟨hne, Or.inl hia⟩
      · exact ⟨hne, Or.inr ((hmem i).2 ⟨hlt, hia⟩)⟩

/-- The first successful `next` cycle on an idle stream with index-aligned
metadata never re-submits a queued slot (starting from the empty queued
set), and establishes the queued-set invariant. -/
theorem invA_start (s : Stream) (env : Env) (v : List Nat × Metadata)
    (hact : s.active = false)
    (hlen : s.buf_meta.length = s.arena.bufs.length)
    (hok : (s.next env).out = .ok v) :
    checkNoDouble [] (s.next env).trace = true ∧
    InvA (s.next env).state (queuedAfter [] (s.next env).trace) := by
  obtain ⟨n, buf, hacc, hon, hp, hn, hd, hbi, htr, hst⟩ :=
    next_idle_ok s env v hact hok
  rw [htr, hst]
  have hQnd : (queuedAfter ([] : List Nat)
      ((List.range s.arena.bufs.length).map fun i => Ev.qbuf i true)).Nodup :=
    queuedAfter_qbufs_nodup _ _ List.nodup_nil
  have hQmem : ∀ j, j ∈ queuedAfter ([] : List Nat)
      ((List.range s.arena.bufs.length).map fun i => Ev.qbuf i true) ↔
      j < s.arena.bufs.length := by
    intro j
    rw [queuedAfter_qbufs]
    simp [List.mem_range]
  constructor
  · rw [checkNoDouble_append, Bool.and_eq_true]
    refine ⟨checkNoDouble_qbufs _ _ (List.nodup_range _) (by simp), ?_⟩
    simp [checkNoDouble, stepQueued]
  · rw [queuedAfter_append]
    have htl : queuedAfter (queuedAfter ([] : List Nat)
        ((List.range s.arena.bufs.length).map fun i => Ev.qbuf i true))
        [Ev.streamon true, Ev.poll (s.timeout.getD (-1)) (.ok n),
          Ev.dqbuf (.ok buf)] =
        (queuedAfter ([] : List Nat)
          ((List.range s.arena.bufs.length).map fun i =>
            Ev.qbuf i true)).erase buf.index := by
      simp [queuedAfter, stepQueued]
    rw [htl]
    refine ⟨by simp [List.length_set, hlen], by simpa using hlen ▸ hbi, rfl,
      hQnd.erase _, ?_⟩
    intro i
    rw [List.Nodup.mem_erase_iff hQnd]
    simp only [hQmem i]
    constructor
    · rintro ⟨hne, hlt⟩
      exact ⟨hlt, hne⟩
    · rintro ⟨hlt, hne⟩
      exact ⟨hne, hlt⟩

/-- A run of uniformly successful `next` cycles from a state satisfying the
queued-set invariant passes the no-double-queue check. -/
theorem nextRun_checkNoDouble (envs : List Env) (s : Stream)
    (q : List Nat) (hinv : InvA s q) (s2 : Stream) (tr : List Ev)
    (h : s.nextRun envs = some (s2, tr)) :
    checkNoDouble q tr = true := by
  induction envs generalizing s q s2 tr with
  | nil =>
    simp only [Stream.nextRun, Option.some.injEq, Prod.mk.injEq] at h
    rw [← h.2]
    rfl
  | cons env rest ih =>
    unfold Stream.nextRun at h
    cases ho : (s.next env).out with
    | err e => simp only [ho] at h; cases h
    | panicked => simp only [ho] at h; cases h
    | ok v =>
      simp only [ho] at h
      cases hr : (s.next env).state.nextRun rest with
      | none => rw [hr] at h; cases h
      | some p2 =>
        obtain ⟨s3, tr3⟩ := p2
        rw [hr] at h
        simp only [Option.some.injEq, Prod.mk.injEq] at h
        obtain ⟨hinv1, hinv2⟩ := invA_step s env q v hinv ho
        rw [← h.2, checkNoDouble_append, Bool.and_eq_true]
        exact ⟨hinv1, ih _ _ hinv2 _ _ hr⟩

/-- C1 counterexample: starting from a fresh single-slot stream, set a
100 ms timeout, run one fully successful cycle (slot 0 completes and is
returned), then a cycle that fails with Timeout — leaving slot 0 queued —
and then call `next` again: that call re-submits a QBUF for slot 0 while
slot 0 is still in the queued set, with no intervening dequeue having
returned it, so the claimed invariant fails on this operation sequence. -/
theorem next_requeues_queued_slot_cex :
    checkNoDouble [] (cexStream.run cexOps).2 = false := by decide

/-- C1 amended: in any sequence of `next()` cycles starting from a fresh
stream (with any configured timeout) in which every cycle succeeds, a buffer
index in the queued set is never submitted by a second QBUF without an
intervening successful dequeue that returned it; after a `next()` that
failed with Timeout (or whose `start()` failed), however, the following
`next()` does re-submit a still-queued slot. -/
theorem nextRun_no_double_queue (bufs : List (List Nat)) (bt : Nat)
    (t : Option Int) (envs : List Env) (s2 : Stream) (tr : List Ev)
    (h : ({ freshStream bufs bt with timeout := t } : Stream).nextRun envs =
      some (s2, tr)) :
    checkNoDouble [] tr = true := by
  cases envs with
  | nil =>
    simp only [Stream.nextRun, Option.some.injEq, Prod.mk.injEq] at h
    rw [← h.2]
    rfl
  | cons env rest =>
    unfold Stream.nextRun at h
    cases ho : (Stream.next { freshStream bufs bt with timeout := t } env).out
      with
    | err e => simp only [ho] at h; cases h
    | panicked => simp only [ho] at h; cases h
    | ok v =>
      simp only [ho] at h
      cases hr : (Stream.next { freshStream bufs bt with
          timeout := t } env).state.nextRun rest with
      | none => rw [hr] at h; cases h
      | some p2 =>
        obtain ⟨s3, tr3⟩ := p2
        rw [hr] at h
        simp only [Option.some.injEq, Prod.mk.injEq] at h
        obtain ⟨h1, hinv⟩ := invA_start
          { freshStream bufs bt with timeout := t } env v rfl
          (by simp [freshStream]) ho
        rw [← h.2, checkNoDouble_append, Bool.and_eq_true]
        exact ⟨h1, nextRun_checkNoDouble rest _ _ hinv _ _ hr⟩

/-- Witness for the amended C1: one successful cycle on a fresh single-slot
stream passes the no-double-queue check. -/
theorem nextRun_no_double_queue_witness :
    checkNoDouble [] [Ev.qbuf 0 true, Ev.streamon true, Ev.poll (-1) (.ok 1),
      Ev.dqbuf (.ok buf0)] = true :=
  nextRun_no_double_queue [[0]] 0 none [envOk0]
    ⟨⟨[[0]]⟩, 0, 0, [⟨100, 0, 0, 1, 1⟩], none, true⟩
    [Ev.qbuf 0 true, Ev.streamon true, Ev.poll (-1) (.ok 1),
      Ev.dqbuf (.ok buf0)] (by decide)

end V4l
